import Mathlib

/-!
# goqrsvg: rendering a QR code matrix as SVG rectangles

A shallow embedding of `goqrsvg.go`.  The drawing sink (`*svg.SVG`) is the
list of drawing calls it has received, Go's `int` is an `Int` reduced to the
64-bit two's-complement range after every arithmetic operation, and a
`barcode.Barcode` is the three observations the renderer makes of it: its
code kind, the right edge of its bounds, and its colour at a point.
-/

namespace Goqrsvg

/-! ## Go's `int` -/

/-- Reduction of an integer to Go's 64-bit `int`: the value in
`[-2^63, 2^63)` congruent to `z` modulo `2^64`. -/
def wrapInt (z : Int) : Int := (z + 2 ^ 63) % 2 ^ 64 - 2 ^ 63

/-- The integers a Go `int` holds without wrapping. -/
def InIntRange (z : Int) : Prop := -(2 ^ 63) ≤ z ∧ z < 2 ^ 63

instance (z : Int) : Decidable (InIntRange z) := by
  unfold InIntRange; infer_instance

/-! ## Colours (`image/color`) -/

/-- The dynamic values of `color.Color` the renderer meets: `color.Gray16`
(the type of `color.Black` and `color.White`) and `color.RGBA64`.  Go's `==`
on two `color.Color` interface values holds exactly when dynamic type and
fields agree, which is equality of this type. -/
inductive Color where
  | gray16 (y : Fin 65536)
  | rgba64 (r g b a : Fin 65536)
  deriving DecidableEq, Repr

namespace Color

/-- The value of `color.Black`, `Gray16{0}`. -/
def Black : Color := gray16 0

/-- The value of `color.White`, `Gray16{0xffff}`. -/
def White : Color := gray16 0xffff

/-- The method `Color.RGBA()`: the four `uint32` channels. -/
def RGBA : Color → Nat × Nat × Nat × Nat
  | gray16 y => (y.val, y.val, y.val, 0xffff)
  | rgba64 r g b a => (r.val, g.val, b.val, a.val)

end Color

/-! ## The barcode and the drawing sink -/

/-- What the renderer reads of a `barcode.Barcode`: `Metadata().CodeKind`,
`Bounds().Max.X` and `At(x, y)`. -/
structure Barcode where
  codeKind : String
  maxX : Int
  At : Int → Int → Color

/-- One call received by the `*svg.SVG` sink. -/
inductive Call where
  | rect (x y w h : Int) (style : String)
  | start (w h : Int)
  deriving DecidableEq, Repr

/-- The sink: the calls made on it so far, oldest first. -/
abbrev SVG := List Call

/-- The method `(*SVG).Rect(x, y, w, h, style)`. -/
def SVG.Rect (s : SVG) (x y w h : Int) (style : String) : SVG :=
  s ++ [Call.rect x y w h style]

/-- The method `(*SVG).Start(w, h)`. -/
def SVG.Start (s : SVG) (w h : Int) : SVG :=
  s ++ [Call.start w h]

/-- The struct `QrSVG`. -/
structure QrSVG where
  qr : Barcode
  qrWidth : Int
  blockSize : Int
  startingX : Int
  startingY : Int

/-- The constructor `NewQrSVG`. -/
def NewQrSVG (qr : Barcode) (blockSize : Int) : QrSVG :=
  { qr := qr, qrWidth := qr.maxX, blockSize := blockSize,
    startingX := 0, startingY := 0 }

/-! ## Colour formatting -/

/-- Two-digit rendering of a number below 100, as `%02d` prints it. -/
def pad2 (d : Nat) : String :=
  if d < 10 then "0" ++ toString d else toString d

/-- The text of `fmt.Sprintf("%.2f", float64(a)/255.0)` for a `uint32` `a`.
`h` is the number of hundredths nearest to `a/255`.  No `a` puts `a/255`
half-way between two hundredths (`200*a = 255*(2*k+1)` has an even left and
an odd right side), and `a/255` lies at least `1/51000` from every half-way
point while the `float64` quotient differs from it by less than `2^-28`, so
the rounding of the floating-point value is the rounding of the exact
quotient. -/
def formatOpacity (a : Nat) : String :=
  let h := (200 * a + 255) / 510
  toString (h / 100) ++ "." ++ pad2 (h % 100)

/-- The method `RGB`: `fmt.Sprintf("fill:rgb(%d,%d,%d)", r, g, b)`. -/
def RGB (r g b : Nat) : String :=
  "fill:rgb(" ++ toString r ++ "," ++ toString g ++ "," ++ toString b ++ ")"

/-- The method `RGBA`: each channel is shifted right by 8, then
`fmt.Sprintf("fill-opacity:%.2f; %s", float64(a)/255.0, qs.RGB(r, g, b))`. -/
def RGBA (r g b a : Nat) : String :=
  let r := r >>> 8
  let g := g >>> 8
  let b := b >>> 8
  let a := a >>> 8
  "fill-opacity:" ++ formatOpacity a ++ "; " ++ RGB r g b

/-- The call `qs.RGBA(c.RGBA())`. -/
def RGBAOf (c : Color) : String :=
  match c.RGBA with
  | (r, g, b, a) => RGBA r g b a

/-! ## Rendering -/

/-- The body of the inner loop of `WriteColorQrSVG` at module `(x, y)`: the
sink after the `if … else if …` on `qs.qr.At(x, y)`. -/
def drawModule (qs : QrSVG) (foreground background : Color) (x y : Nat)
    (currX currY : Int) (s : SVG) : SVG :=
  if qs.qr.At x y = Color.Black then
    s.Rect currX currY qs.blockSize qs.blockSize (RGBAOf foreground ++ ";stroke:none")
  else if qs.qr.At x y = Color.White then
    s.Rect currX currY qs.blockSize qs.blockSize (RGBAOf background ++ ";stroke:none")
  else s

/-- The inner loop `for y := …; y < qs.qrWidth; y++`, entered at index `y`
with `todo` iterations left; each iteration draws the module and then runs
`currX += qs.blockSize`. -/
def innerLoop (qs : QrSVG) (foreground background : Color) (x : Nat) (currY : Int) :
    Nat → Nat → Int → SVG → SVG
  | 0, _, _, s => s
  | todo + 1, y, currX, s =>
    innerLoop qs foreground background x currY todo (y + 1)
      (wrapInt (currX + qs.blockSize))
      (drawModule qs foreground background x y currX currY s)

/-- The outer loop `for x := …; x < qs.qrWidth; x++`, entered at index `x`
with `todo` iterations left; each iteration sets `currX := qs.startingX`,
runs the inner loop from `y = 0`, and then runs `currY += qs.blockSize`. -/
def outerLoop (qs : QrSVG) (foreground background : Color) :
    Nat → Nat → Int → SVG → SVG
  | 0, _, _, s => s
  | todo + 1, x, currY, s =>
    outerLoop qs foreground background todo (x + 1)
      (wrapInt (currY + qs.blockSize))
      (innerLoop qs foreground background x currY qs.qrWidth.toNat 0 qs.startingX s)

/-- The error value returned by `WriteColorQrSVG`. -/
def notQrError : String := "can not write to SVG: Not a QR code"

/-- The method `WriteColorQrSVG`: the sink after the call and the returned
`error` (`none` for `nil`).  A loop `for i := 0; i < w; i++` over a Go `int`
`w` runs `w.toNat` iterations, with `i = 0, 1, …`. -/
def WriteColorQrSVG (qs : QrSVG) (s : SVG) (foreground background : Color) :
    SVG × Option String :=
  if qs.qr.codeKind = "QR Code" then
    (outerLoop qs foreground background qs.qrWidth.toNat 0 qs.startingY s, none)
  else
    (s, some notQrError)

/-- The method `WriteQrSVG`. -/
def WriteQrSVG (qs : QrSVG) (s : SVG) : SVG × Option String :=
  WriteColorQrSVG qs s Color.Black Color.White

/-- The method `SetStartPoint`. -/
def SetStartPoint (qs : QrSVG) (x y : Int) : QrSVG :=
  { qs with
    startingX := wrapInt (x + wrapInt (qs.blockSize * 4))
    startingY := wrapInt (y + wrapInt (qs.blockSize * 4)) }

/-- The method `StartQrSVG`: the config and the sink after the call. -/
def StartQrSVG (qs : QrSVG) (s : SVG) : QrSVG × SVG :=
  let width := wrapInt (wrapInt (qs.qrWidth * qs.blockSize) + wrapInt (qs.blockSize * 8))
  let qs := SetStartPoint qs 0 0
  (qs, s.Start width width)

/-! ## Auxiliary definitions for the proofs -/

/-- The value of a cursor (`currX`, `currY`) that started at `c` after `j`
executions of `cursor += b`. -/
def cursor (b c : Int) (j : Nat) : Int :=
  (fun z => wrapInt (z + b))^[j] c

/-- The calls one pass of the inner loop makes, for outer index `x` and
cursor `currY`. -/
def rowCalls (qs : QrSVG) (fg bg : Color) (x : Nat) (currY : Int) : List Call :=
  (List.range qs.qrWidth.toNat).flatMap (fun j =>
    drawModule qs fg bg x j (cursor qs.blockSize qs.startingX j) currY [])

/-- The calls made for module `(x, y)`: the loop body run on an empty sink
with the cursors at `startingX + y*blockSize` and `startingY + x*blockSize`. -/
def moduleCalls (qs : QrSVG) (fg bg : Color) (x y : Nat) : List Call :=
  drawModule qs fg bg x y
    (wrapInt (qs.startingX + y * qs.blockSize))
    (wrapInt (qs.startingY + x * qs.blockSize)) []

/-- The style `WriteColorQrSVG` gives the rectangle of a module of colour
`c`: the foreground style when `c` is `color.Black`, else the background
style. -/
def moduleStyle (fg bg c : Color) : String :=
  if c = Color.Black then RGBAOf fg ++ ";stroke:none" else RGBAOf bg ++ ";stroke:none"

/-- Every module below the side length is `color.Black` or `color.White`. -/
def Bilevel (qs : QrSVG) : Prop :=
  ∀ x y : Nat, (x : Int) < qs.qrWidth → (y : Int) < qs.qrWidth →
    qs.qr.At x y = Color.Black ∨ qs.qr.At x y = Color.White

/-- The method `WriteColorQrSVG` as a transition on the receiver `*qs` and the
sink together: its body assigns to no field of `qs`, so the receiver comes
out as it went in. -/
def WriteColorQrSVGState (st : QrSVG × SVG) (foreground background : Color) :
    (QrSVG × SVG) × Option String :=
  ((st.1, (WriteColorQrSVG st.1 st.2 foreground background).1),
    (WriteColorQrSVG st.1 st.2 foreground background).2)

/-- Whether a colour is one `WriteColorQrSVG` draws: `color.Black` or
`color.White`. -/
def isModule (c : Color) : Bool :=
  decide (c = Color.Black ∨ c = Color.White)

/-- The number of cells `(x, y)` below the side length that are dark or
light. -/
def moduleCount (qs : QrSVG) : Nat :=
  ((List.range qs.qrWidth.toNat).map (fun x : Nat =>
    (List.range qs.qrWidth.toNat).countP (fun y : Nat => isModule (qs.qr.At x y)))).sum

/-- A call moved by `(dx, dy)`, the new position computed in Go's `int`. -/
def Call.shift (dx dy : Int) : Call → Call
  | Call.rect x y w h style => Call.rect (wrapInt (x + dx)) (wrapInt (y + dy)) w h style
  | Call.start w h => Call.start w h

/-! ## Sample inputs -/

/-- The 2×2 matrix `[[dark, light], [light, dark]]`. -/
def checker2 : Barcode :=
  { codeKind := "QR Code", maxX := 2,
    At := fun x y => if x = y then Color.Black else Color.White }

/-- A 1×1 dark matrix of another symbology. -/
def code128 : Barcode :=
  { codeKind := "Code 128", maxX := 1, At := fun _ _ => Color.Black }

/-- A 1×1 matrix of kind "QR Code" whose only cell is mid-grey. -/
def greyCell : Barcode :=
  { codeKind := "QR Code", maxX := 1, At := fun _ _ => Color.gray16 0x8000 }

/-- The opaque red `color.RGBA64{0xffff, 0, 0, 0xffff}`. -/
def red : Color := Color.rgba64 0xffff 0 0 0xffff

/-- A 5×5 matrix of kind "QR Code" whose cells are all dark. -/
def dark5 : Barcode :=
  { codeKind := "QR Code", maxX := 5, At := fun _ _ => Color.Black }

/-- A 2×2 matrix of kind "QR Code" whose cells are all light. -/
def light2 : Barcode :=
  { codeKind := "QR Code", maxX := 2, At := fun _ _ => Color.White }

/-- The 2×2 matrix `[[dark, grey], [light, dark]]` of kind "QR Code". -/
def greyCorner : Barcode :=
  { codeKind := "QR Code", maxX := 2,
    At := fun x y =>
      if x = y then Color.Black else if x = 0 then Color.gray16 0x8000 else Color.White }

/-- The 2×2 checker matrix with block size `2^61 - 1`. -/
def hugeBlocks : QrSVG := ⟨checker2, 2, 2 ^ 61 - 1, 0, 0⟩

/-- The all-dark 5×5 matrix with block size `2^62`, starting at `(0, 0)`. -/
def wrapping5 : QrSVG := ⟨dark5, 5, 2 ^ 62, 0, 0⟩

end Goqrsvg

namespace Goqrsvg

/-! ## Arithmetic of Go's `int` -/

theorem wrapInt_of_inRange {z : Int} (h : InIntRange z) : wrapInt z = z := by
  unfold InIntRange at h
  unfold wrapInt
  omega

theorem wrapInt_inRange (z : Int) : InIntRange (wrapInt z) := by
  unfold InIntRange wrapInt
  omega

theorem wrapInt_wrapInt_add (a b : Int) : wrapInt (wrapInt a + b) = wrapInt (a + b) := by
  unfold wrapInt
  omega

theorem wrapInt_add_wrapInt (a b : Int) : wrapInt (a + wrapInt b) = wrapInt (a + b) := by
  unfold wrapInt
  omega

/-- After `j` additions of `b`, a cursor that started at an `int` value `c`
holds `c + j*b` reduced to an `int`. -/
theorem cursor_eq (b c : Int) (hc : InIntRange c) (j : Nat) :
    cursor b c j = wrapInt (c + j * b) := by
  unfold cursor
  induction j with
  | zero => simp [wrapInt_of_inRange hc]
  | succ j ih =>
    rw [Function.iterate_succ_apply', ih, wrapInt_wrapInt_add]
    congr 1
    push_cast
    ring

/-! ## The loops as concatenations -/

theorem drawModule_append (qs : QrSVG) (fg bg : Color) (x y : Nat) (cx cy : Int) (s : SVG) :
    drawModule qs fg bg x y cx cy s = s ++ drawModule qs fg bg x y cx cy [] := by
  unfold drawModule SVG.Rect
  split
  · simp
  · split <;> simp

theorem innerLoop_eq (qs : QrSVG) (fg bg : Color) (x : Nat) (currY : Int) :
    ∀ (todo y : Nat) (currX : Int) (s : SVG),
      innerLoop qs fg bg x currY todo y currX s =
        s ++ (List.range todo).flatMap (fun j =>
          drawModule qs fg bg x (y + j) (cursor qs.blockSize currX j) currY []) := by
  unfold cursor
  intro todo
  induction todo with
  | zero => intro y currX s; simp [innerLoop]
  | succ todo ih =>
    intro y currX s
    rw [innerLoop, ih, drawModule_append, List.range_succ_eq_map, List.flatMap_cons,
      List.flatMap_map, List.append_assoc]
    congr 2
    apply List.flatMap_congr
    intro j _
    simp only [Function.comp, Function.iterate_succ_apply, Nat.succ_eq_add_one]
    congr 1
    omega

theorem outerLoop_eq (qs : QrSVG) (fg bg : Color) :
    ∀ (todo x : Nat) (currY : Int) (s : SVG),
      outerLoop qs fg bg todo x currY s =
        s ++ (List.range todo).flatMap (fun i =>
          rowCalls qs fg bg (x + i) (cursor qs.blockSize currY i)) := by
  unfold cursor
  intro todo
  induction todo with
  | zero => intro x currY s; simp [outerLoop]
  | succ todo ih =>
    intro x currY s
    rw [outerLoop, ih, innerLoop_eq, List.range_succ_eq_map, List.flatMap_cons,
      List.flatMap_map, List.append_assoc]
    congr 2
    · simp [rowCalls, cursor]
    · apply List.flatMap_congr
      intro i _
      simp only [Function.comp, Function.iterate_succ_apply, Nat.succ_eq_add_one]
      congr 1
      omega

/-- On a "QR Code" matrix the sink receives, after what it held, the calls of
every module, the first index outermost. -/
theorem WriteColorQrSVG_cursor_calls (qs : QrSVG) (s : SVG) (fg bg : Color)
    (hk : qs.qr.codeKind = "QR Code") :
    (WriteColorQrSVG qs s fg bg).1 =
      s ++ (List.range qs.qrWidth.toNat).flatMap (fun x =>
        (List.range qs.qrWidth.toNat).flatMap (fun y =>
          drawModule qs fg bg x y (cursor qs.blockSize qs.startingX y)
            (cursor qs.blockSize qs.startingY x) [])) := by
  unfold WriteColorQrSVG
  rw [if_pos hk]
  simp only [outerLoop_eq]
  congr 1
  apply List.flatMap_congr
  intro i _
  unfold rowCalls
  rw [Nat.zero_add]

theorem WriteColorQrSVG_calls (qs : QrSVG) (s : SVG) (fg bg : Color)
    (hk : qs.qr.codeKind = "QR Code")
    (hx : InIntRange qs.startingX) (hy : InIntRange qs.startingY) :
    (WriteColorQrSVG qs s fg bg).1 =
      s ++ (List.range qs.qrWidth.toNat).flatMap (fun x =>
        (List.range qs.qrWidth.toNat).flatMap (fun y => moduleCalls qs fg bg x y)) := by
  rw [WriteColorQrSVG_cursor_calls qs s fg bg hk]
  congr 1
  apply List.flatMap_congr
  intro i _
  apply List.flatMap_congr
  intro j _
  unfold moduleCalls
  rw [cursor_eq _ _ hx, cursor_eq _ _ hy]

theorem drawModule_black (qs : QrSVG) (fg bg : Color) (x y : Nat) (cx cy : Int)
    (h : qs.qr.At x y = Color.Black) :
    drawModule qs fg bg x y cx cy [] =
      [Call.rect cx cy qs.blockSize qs.blockSize (RGBAOf fg ++ ";stroke:none")] := by
  simp [drawModule, h, SVG.Rect]

theorem drawModule_white (qs : QrSVG) (fg bg : Color) (x y : Nat) (cx cy : Int)
    (h : qs.qr.At x y = Color.White) :
    drawModule qs fg bg x y cx cy [] =
      [Call.rect cx cy qs.blockSize qs.blockSize (RGBAOf bg ++ ";stroke:none")] := by
  have hne : Color.White ≠ Color.Black := by decide
  simp [drawModule, h, hne, SVG.Rect]

theorem drawModule_bilevel (qs : QrSVG) (fg bg : Color) (x y : Nat) (cx cy : Int)
    (h : qs.qr.At x y = Color.Black ∨ qs.qr.At x y = Color.White) :
    drawModule qs fg bg x y cx cy [] =
      [Call.rect cx cy qs.blockSize qs.blockSize (moduleStyle fg bg (qs.qr.At x y))] := by
  have hne : Color.White ≠ Color.Black := by decide
  rcases h with h | h
  · rw [drawModule_black _ _ _ _ _ _ _ h, h]; simp [moduleStyle]
  · rw [drawModule_white _ _ _ _ _ _ _ h, h]; simp [moduleStyle, hne]

theorem flatMap_singleton_eq_map {α β : Type} (f : α → β) (l : List α) :
    l.flatMap (fun a => [f a]) = l.map f := by
  induction l with
  | nil => rfl
  | cons a l ih => simp [List.flatMap_cons, ih]

theorem pad2_digits : ∀ d : Nat, d < 100 →
    pad2 d = toString (d / 10) ++ toString (d % 10) := by
  decide

/-- The hundredths printed for an 8-bit alpha `a`: the integer nearest to
`100*a/255`. -/
theorem hundredths_nearest (a : Nat) :
    |(((200 * a + 255) / 510 : Nat) : ℚ) / 100 - (a : ℚ) / 255| < 1 / 200 := by
  have h1 : 510 * ((200 * a + 255) / 510) ≤ 200 * a + 255 := Nat.mul_div_le _ _
  have h2 : 200 * a + 255 < 510 * ((200 * a + 255) / 510) + 510 := by
    have := Nat.lt_mul_div_succ (200 * a + 255) (show 0 < 510 by norm_num)
    omega
  have h3 : 510 * ((200 * a + 255) / 510) ≠ 200 * a + 255 := by omega
  generalize (200 * a + 255) / 510 = h at h1 h2 h3
  have h1q : (510 : ℚ) * h < 200 * a + 255 := by
    have : 510 * h < 200 * a + 255 := lt_of_le_of_ne h1 h3
    exact_mod_cast this
  have h2q : (200 : ℚ) * a + 255 < 510 * h + 510 := by exact_mod_cast h2
  rw [abs_lt]
  constructor
  · linarith
  · linarith

theorem formatOpacity_eq (a : Nat) (ha : a ≤ 255) :
    formatOpacity a =
      toString ((200 * a + 255) / 510 / 100) ++ "." ++
        toString ((200 * a + 255) / 510 / 10 % 10) ++
        toString ((200 * a + 255) / 510 % 10) := by
  unfold formatOpacity
  have hh : (200 * a + 255) / 510 ≤ 100 := by omega
  generalize (200 * a + 255) / 510 = h at hh
  simp only []
  have e1 : h % 100 / 10 = h / 10 % 10 := by omega
  have e2 : h % 100 % 10 = h % 10 := by omega
  rw [pad2_digits _ (Nat.mod_lt _ (by norm_num)), e1, e2]
  simp only [String.append_assoc]

theorem getElem?_flatMap_range_map {β : Type} (f : Nat → Nat → β) (n : Nat) :
    ∀ m k : Nat, k < m * n →
      ((List.range m).flatMap (fun x => (List.range n).map (f x)))[k]? =
        some (f (k / n) (k % n)) := by
  intro m
  induction m with
  | zero => intro k hk; simp at hk
  | succ m ih =>
    intro k hk
    have hlen : ((List.range m).flatMap (fun x => (List.range n).map (f x))).length
        = m * n := by
      clear ih hk
      induction m with
      | zero => simp
      | succ m ih' =>
        rw [List.range_succ, List.flatMap_append, List.length_append, ih']
        simp [Nat.succ_mul]
    rw [List.range_succ, List.flatMap_append]
    by_cases hlt : k < m * n
    · rw [List.getElem?_append_left (by rw [hlen]; exact hlt)]
      exact ih k hlt
    · have hge : m * n ≤ k := Nat.le_of_not_lt hlt
      rw [List.getElem?_append_right (by rw [hlen]; exact hge), hlen]
      have hr : k - m * n < n := by
        rw [Nat.succ_mul] at hk
        omega
      have hn : 0 < n := by omega
      have hk' : k = (k - m * n) + m * n := by omega
      have hdiv : k / n = m := by
        rw [hk', Nat.add_mul_div_right _ _ hn, Nat.div_eq_of_lt hr, Nat.zero_add]
      have hmod : k % n = k - m * n := by
        rw [hk', Nat.add_mul_mod_self_right, Nat.mod_eq_of_lt hr]
        omega
      rw [hdiv, hmod]
      simp [hr]

/-! ## The claims -/

/-- C1: on a matrix of kind "QR Code" the calls added to the sink are the
concatenation, over the modules `(x, y)` with the first index outermost, of
one list per module, and the list of a dark (light) module is exactly one
rectangle at `(startingX + y*blockSize, startingY + x*blockSize)` (the value
of these sums as Go `int`s), of width and height `blockSize`, whose style is
the fill style of the foreground (background) colour followed by
";stroke:none". -/
theorem WriteColorQrSVG_module_rect (qs : QrSVG) (s : SVG) (fg bg : Color)
    (hk : qs.qr.codeKind = "QR Code")
    (hx : InIntRange qs.startingX) (hy : InIntRange qs.startingY) :
    ∃ cell : Nat → Nat → List Call,
      (WriteColorQrSVG qs s fg bg).1 =
        s ++ (List.range qs.qrWidth.toNat).flatMap (fun x =>
          (List.range qs.qrWidth.toNat).flatMap (fun y => cell x y)) ∧
      ∀ x y : Nat, (x : Int) < qs.qrWidth → (y : Int) < qs.qrWidth →
        (qs.qr.At x y = Color.Black →
          cell x y = [Call.rect (wrapInt (qs.startingX + y * qs.blockSize))
            (wrapInt (qs.startingY + x * qs.blockSize)) qs.blockSize qs.blockSize
            (RGBAOf fg ++ ";stroke:none")]) ∧
        (qs.qr.At x y = Color.White →
          cell x y = [Call.rect (wrapInt (qs.startingX + y * qs.blockSize))
            (wrapInt (qs.startingY + x * qs.blockSize)) qs.blockSize qs.blockSize
            (RGBAOf bg ++ ";stroke:none")]) :=
  ⟨moduleCalls qs fg bg, WriteColorQrSVG_calls qs s fg bg hk hx hy,
    fun x y _ _ =>
      ⟨fun h => drawModule_black qs fg bg x y _ _ h,
       fun h => drawModule_white qs fg bg x y _ _ h⟩⟩

/-- Witness of C1: the 2×2 checker matrix with block size 3 and start point
`(10, 20)`; the light module `(0, 1)` gives one white rectangle at
`(13, 20)`. -/
theorem WriteColorQrSVG_module_rect_witness :
    ∃ cell : Nat → Nat → List Call,
      (WriteColorQrSVG ⟨checker2, 2, 3, 10, 20⟩ [] red Color.White).1 =
        (List.range 2).flatMap (fun x => (List.range 2).flatMap (fun y => cell x y)) ∧
      cell 0 1 =
        [Call.rect 13 20 3 3 "fill-opacity:1.00; fill:rgb(255,255,255);stroke:none"] ∧
      cell 1 1 =
        [Call.rect 13 23 3 3 "fill-opacity:1.00; fill:rgb(255,0,0);stroke:none"] := by
  obtain ⟨cell, h1, h2⟩ :=
    WriteColorQrSVG_module_rect ⟨checker2, 2, 3, 10, 20⟩ [] red Color.White
      (by decide) (by decide) (by decide)
  refine ⟨cell, by simpa using h1, ?_, ?_⟩
  · have h := (h2 0 1 (by decide) (by decide)).2 (by decide)
    rw [h]; decide
  · have h := (h2 1 1 (by decide) (by decide)).1 (by decide)
    rw [h]; decide

/-- Counterexample to C2 as stated: with side 1 and block size 1, a matrix
whose kind is not "QR Code", and a "QR Code" matrix whose only cell is
neither dark nor light, both get no rectangle at all instead of `1*1`. -/
theorem WriteColorQrSVG_count_counterexample :
    (0 < (NewQrSVG code128 1).qrWidth ∧ 0 < (NewQrSVG code128 1).blockSize ∧
      (WriteColorQrSVG (NewQrSVG code128 1) [] Color.Black Color.White).1.length ≠ 1 * 1) ∧
    (0 < (NewQrSVG greyCell 1).qrWidth ∧ 0 < (NewQrSVG greyCell 1).blockSize ∧
      (WriteColorQrSVG (NewQrSVG greyCell 1) [] Color.Black Color.White).1.length ≠ 1 * 1) := by
  decide

/-- C2 (amended): for a matrix of kind "QR Code" with side `n > 0` whose
cells are all dark or light, and block size `b > 0`, the calls added to the
sink are one rectangle per module, `n*n` in all, each of width and height
`b`. -/
theorem WriteColorQrSVG_count (qs : QrSVG) (s : SVG) (fg bg : Color)
    (hk : qs.qr.codeKind = "QR Code") (hbin : Bilevel qs)
    (hn : 0 < qs.qrWidth) (hb : 0 < qs.blockSize) :
    ∃ (emitted : List Call) (cell : Nat → Nat → Call),
      (WriteColorQrSVG qs s fg bg).1 = s ++ emitted ∧
      emitted = (List.range qs.qrWidth.toNat).flatMap (fun x =>
        (List.range qs.qrWidth.toNat).map (fun y => cell x y)) ∧
      (emitted.length : Int) = qs.qrWidth * qs.qrWidth ∧
      ∀ c ∈ emitted, ∃ (px py : Int) (style : String),
        c = Call.rect px py qs.blockSize qs.blockSize style := by
  have _ := hb
  let cell : Nat → Nat → Call := fun x y =>
    Call.rect (cursor qs.blockSize qs.startingX y) (cursor qs.blockSize qs.startingY x)
      qs.blockSize qs.blockSize (moduleStyle fg bg (qs.qr.At x y))
  have hem : (WriteColorQrSVG qs s fg bg).1 =
      s ++ (List.range qs.qrWidth.toNat).flatMap (fun x =>
        (List.range qs.qrWidth.toNat).map (fun y => cell x y)) := by
    rw [WriteColorQrSVG_cursor_calls qs s fg bg hk]
    congr 1
    apply List.flatMap_congr
    intro x hx
    rw [← flatMap_singleton_eq_map]
    apply List.flatMap_congr
    intro y hy
    rw [List.mem_range, Int.lt_toNat] at hx hy
    exact drawModule_bilevel qs fg bg x y _ _ (hbin x y hx hy)
  refine ⟨_, cell, hem, rfl, ?_, ?_⟩
  · have hlen : ∀ m : Nat, ((List.range m).flatMap (fun x =>
        (List.range qs.qrWidth.toNat).map (fun y => cell x y))).length
          = m * qs.qrWidth.toNat := by
      intro m
      induction m with
      | zero => simp
      | succ m ih =>
        rw [List.range_succ, List.flatMap_append, List.length_append, ih]
        simp [Nat.succ_mul]
    rw [hlen]
    push_cast
    rw [Int.toNat_of_nonneg hn.le]
  · intro c hc
    rw [List.mem_flatMap] at hc
    obtain ⟨x, _, hc⟩ := hc
    rw [List.mem_map] at hc
    obtain ⟨y, _, rfl⟩ := hc
    exact ⟨_, _, _, rfl⟩

/-- Witness of C2 (amended): the 2×2 checker matrix with block size 3 gets
four rectangles. -/
theorem WriteColorQrSVG_count_witness :
    ∃ (emitted : List Call) (cell : Nat → Nat → Call),
      (WriteColorQrSVG (NewQrSVG checker2 3) [] Color.Black Color.White).1 = [] ++ emitted ∧
      emitted = (List.range (2 : Int).toNat).flatMap (fun x =>
        (List.range (2 : Int).toNat).map (fun y => cell x y)) ∧
      (emitted.length : Int) = 2 * 2 ∧
      ∀ c ∈ emitted, ∃ (px py : Int) (style : String), c = Call.rect px py 3 3 style :=
  WriteColorQrSVG_count (NewQrSVG checker2 3) [] Color.Black Color.White
    (by decide)
    (by
      intro x y _ _
      show (if (x : Int) = (y : Int) then Color.Black else Color.White) = Color.Black ∨
        (if (x : Int) = (y : Int) then Color.Black else Color.White) = Color.White
      split
      · exact Or.inl rfl
      · exact Or.inr rfl)
    (by decide) (by decide)

/-- C3: `WriteColorQrSVG` returns an error exactly when the code kind is not
"QR Code"; in that case the sink is returned as it was, and for every other
input, whatever the block size, the returned error is `nil`. -/
theorem WriteColorQrSVG_error_iff (qs : QrSVG) (s : SVG) (fg bg : Color) :
    ((WriteColorQrSVG qs s fg bg).2 ≠ none ↔ qs.qr.codeKind ≠ "QR Code") ∧
    (qs.qr.codeKind ≠ "QR Code" → WriteColorQrSVG qs s fg bg = (s, some notQrError)) ∧
    (qs.qr.codeKind = "QR Code" → (WriteColorQrSVG qs s fg bg).2 = none) := by
  unfold WriteColorQrSVG
  by_cases hk : qs.qr.codeKind = "QR Code"
  · simp [hk]
  · simp [hk]

/-- Counterexample to C4 as stated: for the opaque red `(65535, 0, 0, 65535)`
the fill style is not "fill:rgb(255,0,0)"; it carries a fill-opacity
fragment. -/
theorem RGBA_opaque_counterexample :
    RGBA 65535 0 0 65535 ≠ "fill:rgb(255,0,0)" ∧
    RGBA 65535 0 0 65535 = "fill-opacity:1.00; fill:rgb(255,0,0)" := by
  decide

/-- C4 (amended): for every colour whose alpha is 65535, `RGBA` returns
"fill-opacity:1.00; fill:rgb(r,g,b)" with each channel shifted right by 8;
for `(65535, 0, 0, 65535)` that is "fill-opacity:1.00; fill:rgb(255,0,0)". -/
theorem RGBA_opaque (r g b : Nat) :
    RGBA r g b 65535 =
      "fill-opacity:1.00; fill:rgb(" ++ toString (r >>> 8) ++ "," ++
        toString (g >>> 8) ++ "," ++ toString (b >>> 8) ++ ")" ∧
    RGBA 65535 0 0 65535 = "fill-opacity:1.00; fill:rgb(255,0,0)" := by
  refine ⟨?_, by decide⟩
  have h1 : formatOpacity (65535 >>> 8) = "1.00" := by decide
  have h2 : ("fill-opacity:1.00; fill:rgb(" : String) =
      "fill-opacity:" ++ "1.00" ++ "; " ++ "fill:rgb(" := by decide
  simp only [RGBA, RGB, h1]
  rw [h2]
  simp only [String.append_assoc]

/-- C5: for 16-bit channels with an alpha other than 65535, `RGBA` returns
"fill-opacity:q; fill:rgb(R,G,B)" where `R`, `G`, `B` are the channels
shifted right by 8, each at most 255, and `q` is the two-decimal numeral of
the number of hundredths `h` nearest to `(a >> 8)/255`; for
`(65535, 0, 0, 32896)` that is "fill-opacity:0.50; fill:rgb(255,0,0)". -/
theorem RGBA_translucent (r g b a : Nat)
    (hr : r ≤ 65535) (hg : g ≤ 65535) (hb : b ≤ 65535) (ha : a ≤ 65535)
    (hna : a ≠ 65535) :
    (∃ R G B h : Nat,
      R = r >>> 8 ∧ G = g >>> 8 ∧ B = b >>> 8 ∧ R ≤ 255 ∧ G ≤ 255 ∧ B ≤ 255 ∧
      h ≤ 100 ∧ |(h : ℚ) / 100 - ((a >>> 8 : Nat) : ℚ) / 255| < 1 / 200 ∧
      RGBA r g b a =
        "fill-opacity:" ++ toString (h / 100) ++ "." ++ toString (h / 10 % 10) ++
          toString (h % 10) ++ "; fill:rgb(" ++ toString R ++ "," ++ toString G ++ "," ++
          toString B ++ ")") ∧
    RGBA 65535 0 0 32896 = "fill-opacity:0.50; fill:rgb(255,0,0)" := by
  have _ := hna
  refine ⟨⟨r >>> 8, g >>> 8, b >>> 8, (200 * (a >>> 8) + 255) / 510, rfl, rfl, rfl,
    ?_, ?_, ?_, ?_, hundredths_nearest _, ?_⟩, by decide⟩
  · rw [Nat.shiftRight_eq_div_pow]; omega
  · rw [Nat.shiftRight_eq_div_pow]; omega
  · rw [Nat.shiftRight_eq_div_pow]; omega
  · rw [Nat.shiftRight_eq_div_pow]; omega
  · have ha8 : a >>> 8 ≤ 255 := by rw [Nat.shiftRight_eq_div_pow]; omega
    have h2 : ("; fill:rgb(" : String) = "; " ++ "fill:rgb(" := by decide
    simp only [RGBA, RGB, formatOpacity_eq _ ha8]
    rw [h2]
    simp only [String.append_assoc]

/-- Witness of C5: the half-transparent red `(65535, 0, 0, 32896)`. -/
theorem RGBA_translucent_witness :
    (∃ R G B h : Nat,
      R = 65535 >>> 8 ∧ G = 0 >>> 8 ∧ B = 0 >>> 8 ∧ R ≤ 255 ∧ G ≤ 255 ∧ B ≤ 255 ∧
      h ≤ 100 ∧ |(h : ℚ) / 100 - ((32896 >>> 8 : Nat) : ℚ) / 255| < 1 / 200 ∧
      RGBA 65535 0 0 32896 =
        "fill-opacity:" ++ toString (h / 100) ++ "." ++ toString (h / 10 % 10) ++
          toString (h % 10) ++ "; fill:rgb(" ++ toString R ++ "," ++ toString G ++ "," ++
          toString B ++ ")") ∧
    RGBA 65535 0 0 32896 = "fill-opacity:0.50; fill:rgb(255,0,0)" :=
  RGBA_translucent 65535 0 0 32896 (by decide) (by decide) (by decide) (by decide)
    (by decide)

/-- C6: `SetStartPoint(x, y)` sets `startingX` to `x + 4*blockSize` and
`startingY` to `y + 4*blockSize` as Go computes these sums, which is their
exact value whenever that fits an `int`; with block size 4,
`SetStartPoint(10, 20)` gives 26 and 36. -/
theorem SetStartPoint_origin (qs : QrSVG) (x y : Int) :
    (SetStartPoint qs x y).startingX = wrapInt (x + 4 * qs.blockSize) ∧
    (SetStartPoint qs x y).startingY = wrapInt (y + 4 * qs.blockSize) ∧
    (InIntRange (x + 4 * qs.blockSize) →
      (SetStartPoint qs x y).startingX = x + 4 * qs.blockSize) ∧
    (InIntRange (y + 4 * qs.blockSize) →
      (SetStartPoint qs x y).startingY = y + 4 * qs.blockSize) ∧
    (qs.blockSize = 4 →
      (SetStartPoint qs 10 20).startingX = 26 ∧ (SetStartPoint qs 10 20).startingY = 36) := by
  have hX : (SetStartPoint qs x y).startingX = wrapInt (x + 4 * qs.blockSize) := by
    show wrapInt (x + wrapInt (qs.blockSize * 4)) = _
    rw [wrapInt_add_wrapInt, Int.mul_comm]
  have hY : (SetStartPoint qs x y).startingY = wrapInt (y + 4 * qs.blockSize) := by
    show wrapInt (y + wrapInt (qs.blockSize * 4)) = _
    rw [wrapInt_add_wrapInt, Int.mul_comm]
  refine ⟨hX, hY, fun h => by rw [hX, wrapInt_of_inRange h],
    fun h => by rw [hY, wrapInt_of_inRange h], ?_⟩
  intro hb
  unfold SetStartPoint
  simp only [hb]
  decide

/-- C7: `StartQrSVG` starts the document with width and height both
`qrWidth*blockSize + 8*blockSize` as Go computes it, which is the exact value
whenever that fits an `int`; the margin term `8*blockSize` is
`blockSize*2*4`. -/
theorem StartQrSVG_canvas (qs : QrSVG) (s : SVG) :
    (StartQrSVG qs s).2 =
      s ++ [Call.start (wrapInt (qs.qrWidth * qs.blockSize + 8 * qs.blockSize))
        (wrapInt (qs.qrWidth * qs.blockSize + 8 * qs.blockSize))] ∧
    (InIntRange (qs.qrWidth * qs.blockSize + 8 * qs.blockSize) →
      (StartQrSVG qs s).2 =
        s ++ [Call.start (qs.qrWidth * qs.blockSize + 8 * qs.blockSize)
          (qs.qrWidth * qs.blockSize + 8 * qs.blockSize)]) ∧
    qs.qrWidth * qs.blockSize + 8 * qs.blockSize =
      qs.qrWidth * qs.blockSize + qs.blockSize * 2 * 4 := by
  have hw : wrapInt (wrapInt (qs.qrWidth * qs.blockSize) + wrapInt (qs.blockSize * 8)) =
      wrapInt (qs.qrWidth * qs.blockSize + 8 * qs.blockSize) := by
    rw [wrapInt_wrapInt_add, wrapInt_add_wrapInt, Int.mul_comm qs.blockSize 8]
  have h1 : (StartQrSVG qs s).2 =
      s ++ [Call.start (wrapInt (qs.qrWidth * qs.blockSize + 8 * qs.blockSize))
        (wrapInt (qs.qrWidth * qs.blockSize + 8 * qs.blockSize))] := by
    show s ++ [Call.start _ _] = _
    rw [hw]
  refine ⟨h1, fun h => ?_, by ring⟩
  rw [h1, wrapInt_of_inRange h]

/-- C8: on a matrix of kind "QR Code" with side `n` whose cells are all dark
or light, the `k`-th rectangle added to the sink (`k < n*n`) is the one of
module `(k / n, k mod n)`, at
`(startingX + (k mod n)*blockSize, startingY + (k / n)*blockSize)`; the 2×2
checker matrix with block size 1 at start `(0, 0)` gives `(0,0)` dark,
`(1,0)` light, `(0,1)` light, `(1,1)` dark. -/
theorem WriteColorQrSVG_raster (qs : QrSVG) (s : SVG) (fg bg : Color)
    (hk : qs.qr.codeKind = "QR Code") (hbin : Bilevel qs)
    (hx : InIntRange qs.startingX) (hy : InIntRange qs.startingY) :
    (∃ emitted : List Call,
      (WriteColorQrSVG qs s fg bg).1 = s ++ emitted ∧
      emitted.length = qs.qrWidth.toNat * qs.qrWidth.toNat ∧
      ∀ k : Nat, k < qs.qrWidth.toNat * qs.qrWidth.toNat →
        emitted[k]? = some (Call.rect
          (wrapInt (qs.startingX + (k % qs.qrWidth.toNat : Nat) * qs.blockSize))
          (wrapInt (qs.startingY + (k / qs.qrWidth.toNat : Nat) * qs.blockSize))
          qs.blockSize qs.blockSize
          (moduleStyle fg bg
            (qs.qr.At (k / qs.qrWidth.toNat : Nat) (k % qs.qrWidth.toNat : Nat))))) ∧
    (WriteColorQrSVG ⟨checker2, 2, 1, 0, 0⟩ [] fg bg).1 =
      [Call.rect 0 0 1 1 (RGBAOf fg ++ ";stroke:none"),
       Call.rect 1 0 1 1 (RGBAOf bg ++ ";stroke:none"),
       Call.rect 0 1 1 1 (RGBAOf bg ++ ";stroke:none"),
       Call.rect 1 1 1 1 (RGBAOf fg ++ ";stroke:none")] := by
  refine ⟨?_, rfl⟩
  let cell : Nat → Nat → Call := fun x y =>
    Call.rect (wrapInt (qs.startingX + y * qs.blockSize))
      (wrapInt (qs.startingY + x * qs.blockSize))
      qs.blockSize qs.blockSize (moduleStyle fg bg (qs.qr.At x y))
  have hem : (WriteColorQrSVG qs s fg bg).1 =
      s ++ (List.range qs.qrWidth.toNat).flatMap (fun x =>
        (List.range qs.qrWidth.toNat).map (fun y => cell x y)) := by
    rw [WriteColorQrSVG_calls qs s fg bg hk hx hy]
    congr 1
    apply List.flatMap_congr
    intro x hx'
    rw [← flatMap_singleton_eq_map]
    apply List.flatMap_congr
    intro y hy'
    rw [List.mem_range, Int.lt_toNat] at hx' hy'
    exact drawModule_bilevel qs fg bg x y _ _ (hbin x y hx' hy')
  have hget := getElem?_flatMap_range_map cell qs.qrWidth.toNat qs.qrWidth.toNat
  refine ⟨_, hem, ?_, fun k hk' => hget k hk'⟩
  have hlen : ∀ m : Nat, ((List.range m).flatMap (fun x =>
      (List.range qs.qrWidth.toNat).map (fun y => cell x y))).length
        = m * qs.qrWidth.toNat := by
    intro m
    induction m with
    | zero => simp
    | succ m ih =>
      rw [List.range_succ, List.flatMap_append, List.length_append, ih]
      simp [Nat.succ_mul]
  exact hlen _

/-- Witness of C8: the 2×2 checker matrix with block size 3 at start
`(10, 20)`; the rectangle of index 1 is the light module `(0, 1)` at
`(13, 20)`. -/
theorem WriteColorQrSVG_raster_witness :
    ∃ emitted : List Call,
      (WriteColorQrSVG ⟨checker2, 2, 3, 10, 20⟩ [] red Color.White).1 = [] ++ emitted ∧
      emitted.length = 4 ∧
      emitted[1]? = some
        (Call.rect 13 20 3 3 "fill-opacity:1.00; fill:rgb(255,255,255);stroke:none") := by
  obtain ⟨⟨emitted, h1, h2, h3⟩, _⟩ :=
    WriteColorQrSVG_raster ⟨checker2, 2, 3, 10, 20⟩ [] red Color.White (by decide)
      (by
        intro x y _ _
        show (if (x : Int) = (y : Int) then Color.Black else Color.White) = Color.Black ∨
          (if (x : Int) = (y : Int) then Color.Black else Color.White) = Color.White
        split
        · exact Or.inl rfl
        · exact Or.inr rfl)
      (by decide) (by decide)
  refine ⟨emitted, h1, h2, ?_⟩
  rw [h3 1 (by decide)]
  decide

/-- C9: `WriteQrSVG` returns the same error and leaves the same sink as
`WriteColorQrSVG` called with `color.Black` as foreground and `color.White`
as background. -/
theorem WriteQrSVG_eq (qs : QrSVG) (s : SVG) :
    (WriteQrSVG qs s).2 = (WriteColorQrSVG qs s Color.Black Color.White).2 ∧
    (WriteQrSVG qs s).1 = (WriteColorQrSVG qs s Color.Black Color.White).1 :=
  ⟨rfl, rfl⟩

/-- C10: after `StartQrSVG` the config is the one `SetStartPoint(0, 0)`
gives: `startingX` and `startingY` are `4*blockSize` (as Go computes it,
exact whenever it fits an `int`) whatever they were before, and the barcode,
`qrWidth` and `blockSize` are unchanged. -/
theorem StartQrSVG_origin (qs : QrSVG) (s : SVG) :
    (StartQrSVG qs s).1 = SetStartPoint qs 0 0 ∧
    (StartQrSVG qs s).1.startingX = wrapInt (4 * qs.blockSize) ∧
    (StartQrSVG qs s).1.startingY = wrapInt (4 * qs.blockSize) ∧
    (InIntRange (4 * qs.blockSize) →
      (StartQrSVG qs s).1.startingX = 4 * qs.blockSize ∧
      (StartQrSVG qs s).1.startingY = 4 * qs.blockSize) ∧
    (∀ sx sy : Int,
      (StartQrSVG { qs with startingX := sx, startingY := sy } s).1 = (StartQrSVG qs s).1) ∧
    (StartQrSVG qs s).1.qrWidth = qs.qrWidth ∧
    (StartQrSVG qs s).1.blockSize = qs.blockSize := by
  have h4 : wrapInt (0 + wrapInt (qs.blockSize * 4)) = wrapInt (4 * qs.blockSize) := by
    rw [wrapInt_add_wrapInt, Int.zero_add, Int.mul_comm]
  refine ⟨rfl, h4, h4, fun h => ?_, fun _ _ => rfl, rfl, rfl⟩
  have hX : (StartQrSVG qs s).1.startingX = wrapInt (4 * qs.blockSize) := h4
  have hY : (StartQrSVG qs s).1.startingY = wrapInt (4 * qs.blockSize) := h4
  rw [hX, hY, wrapInt_of_inRange h]
  exact ⟨rfl, rfl⟩

/-! ## Further lemmas -/

theorem WriteColorQrSVG_append (qs : QrSVG) (s : SVG) (fg bg : Color) :
    (WriteColorQrSVG qs s fg bg).1 = s ++ (WriteColorQrSVG qs [] fg bg).1 := by
  by_cases hk : qs.qr.codeKind = "QR Code"
  · rw [WriteColorQrSVG_cursor_calls qs s fg bg hk,
      WriteColorQrSVG_cursor_calls qs [] fg bg hk, List.nil_append]
  · simp [WriteColorQrSVG, hk]

theorem WriteColorQrSVG_error_indep (qs : QrSVG) (s s' : SVG) (fg bg : Color) :
    (WriteColorQrSVG qs s fg bg).2 = (WriteColorQrSVG qs s' fg bg).2 := by
  unfold WriteColorQrSVG
  split <;> rfl

theorem length_flatMap_range_map {β : Type} (f : Nat → Nat → β) (n : Nat) (m : Nat) :
    ((List.range m).flatMap (fun x => (List.range n).map (f x))).length = m * n := by
  induction m with
  | zero => simp
  | succ m ih =>
    rw [List.range_succ, List.flatMap_append, List.length_append, ih]
    simp [Nat.succ_mul]

theorem drawModule_other (qs : QrSVG) (fg bg : Color) (x y : Nat) (cx cy : Int)
    (h1 : qs.qr.At x y ≠ Color.Black) (h2 : qs.qr.At x y ≠ Color.White) :
    drawModule qs fg bg x y cx cy [] = [] := by
  simp [drawModule, h1, h2]

theorem mem_drawModule (qs : QrSVG) (fg bg : Color) (x y : Nat) (cx cy : Int) (c : Call)
    (hc : c ∈ drawModule qs fg bg x y cx cy []) :
    ∃ style : String, c = Call.rect cx cy qs.blockSize qs.blockSize style := by
  unfold drawModule SVG.Rect at hc
  split at hc
  · exact ⟨_, by simpa using hc⟩
  · split at hc
    · exact ⟨_, by simpa using hc⟩
    · simp at hc

theorem isModule_iff (c : Color) :
    isModule c = true ↔ c = Color.Black ∨ c = Color.White := by
  simp [isModule]

theorem length_flatMap_countP {α β : Type} (p : α → Bool) (f : α → List β) (l : List α)
    (h : ∀ a ∈ l, (f a).length = if p a then 1 else 0) :
    (l.flatMap f).length = l.countP p := by
  induction l with
  | nil => rfl
  | cons a l ih =>
    rw [List.flatMap_cons, List.length_append, List.countP_cons,
      ih (fun b hb => h b (List.mem_cons_of_mem _ hb)), h a (List.mem_cons_self _ _)]
    omega

theorem length_flatMap_sum {α β : Type} (f : α → List β) (g : α → Nat) (l : List α)
    (h : ∀ a ∈ l, (f a).length = g a) :
    (l.flatMap f).length = (l.map g).sum := by
  induction l with
  | nil => rfl
  | cons a l ih =>
    rw [List.flatMap_cons, List.length_append, List.map_cons, List.sum_cons,
      ih (fun b hb => h b (List.mem_cons_of_mem _ hb)), h a (List.mem_cons_self _ _)]

theorem sublist_flatMap {α β : Type} (f g : α → List β) (l : List α)
    (h : ∀ a ∈ l, List.Sublist (f a) (g a)) :
    List.Sublist (l.flatMap f) (l.flatMap g) := by
  induction l with
  | nil => exact List.Sublist.refl _
  | cons a l ih =>
    rw [List.flatMap_cons, List.flatMap_cons]
    exact List.Sublist.append (h a (List.mem_cons_self _ _))
      (ih (fun b hb => h b (List.mem_cons_of_mem _ hb)))

theorem moduleCalls_length (qs : QrSVG) (fg bg : Color) (x y : Nat) :
    (moduleCalls qs fg bg x y).length = if isModule (qs.qr.At x y) then 1 else 0 := by
  have hne : Color.White ≠ Color.Black := by decide
  unfold moduleCalls
  by_cases h1 : qs.qr.At x y = Color.Black
  · rw [drawModule_black _ _ _ _ _ _ _ h1]
    simp [isModule, h1]
  · by_cases h2 : qs.qr.At x y = Color.White
    · rw [drawModule_white _ _ _ _ _ _ _ h2]
      simp [isModule, h2]
    · rw [drawModule_other _ _ _ _ _ _ _ h1 h2]
      simp [isModule, h1, h2]

theorem moduleCalls_total_length (qs : QrSVG) (fg bg : Color) :
    ((List.range qs.qrWidth.toNat).flatMap (fun x =>
      (List.range qs.qrWidth.toNat).flatMap (fun y => moduleCalls qs fg bg x y))).length =
      moduleCount qs := by
  unfold moduleCount
  apply length_flatMap_sum
  intro x _
  apply length_flatMap_countP
  intro y _
  exact moduleCalls_length qs fg bg x y

theorem drawModule_shift (q1 q2 : QrSVG) (fg bg : Color) (i j : Nat) (cx cy dx dy : Int)
    (hqr : q2.qr = q1.qr) (hb : q2.blockSize = q1.blockSize) :
    drawModule q2 fg bg i j (wrapInt (cx + dx)) (wrapInt (cy + dy)) [] =
      (drawModule q1 fg bg i j cx cy []).map (Call.shift dx dy) := by
  unfold drawModule SVG.Rect
  rw [hqr, hb]
  split
  · rfl
  · split <;> rfl

theorem wrapInt_position (c b n : Int) (y : Nat) (hb : 0 ≤ b) (hy : (y : Int) < n)
    (hc : InIntRange c) (hC : InIntRange (c + n * b)) :
    wrapInt (c + y * b) = c + y * b := by
  apply wrapInt_of_inRange
  have h0 : 0 ≤ (y : Int) * b := mul_nonneg (Int.ofNat_nonneg y) hb
  have h1 : (y : Int) * b ≤ n * b := mul_le_mul_of_nonneg_right hy.le hb
  unfold InIntRange at *
  constructor
  · linarith [hc.1]
  · linarith [hC.2]

theorem mem_moduleCalls (qs : QrSVG) (fg bg : Color) (x y : Nat) (c : Call)
    (hb : 0 ≤ qs.blockSize) (hxn : (x : Int) < qs.qrWidth) (hyn : (y : Int) < qs.qrWidth)
    (hx : InIntRange qs.startingX) (hy : InIntRange qs.startingY)
    (hX : InIntRange (qs.startingX + qs.qrWidth * qs.blockSize))
    (hY : InIntRange (qs.startingY + qs.qrWidth * qs.blockSize))
    (hc : c ∈ moduleCalls qs fg bg x y) :
    ∃ style : String,
      c = Call.rect (qs.startingX + y * qs.blockSize) (qs.startingY + x * qs.blockSize)
        qs.blockSize qs.blockSize style := by
  obtain ⟨style, h⟩ := mem_drawModule qs fg bg x y _ _ c hc
  rw [wrapInt_position _ _ _ y hb hyn hx hX, wrapInt_position _ _ _ x hb hxn hy hY] at h
  exact ⟨style, h⟩

theorem mem_calls (qs : QrSVG) (fg bg : Color) (c : Call)
    (hc : c ∈ (List.range qs.qrWidth.toNat).flatMap (fun x =>
      (List.range qs.qrWidth.toNat).flatMap (fun y => moduleCalls qs fg bg x y))) :
    ∃ x y : Nat, (x : Int) < qs.qrWidth ∧ (y : Int) < qs.qrWidth ∧
      c ∈ moduleCalls qs fg bg x y := by
  rw [List.mem_flatMap] at hc
  obtain ⟨x, hx, hc⟩ := hc
  rw [List.mem_flatMap] at hc
  obtain ⟨y, hy, hc⟩ := hc
  rw [List.mem_range, Int.lt_toNat] at hx hy
  exact ⟨x, y, hx, hy, hc⟩

/-! ## The claims, continued -/

/-- C11: `NewQrSVG` is total and returns a config holding the matrix, with
`qrWidth` the side the matrix reports (`Bounds().Max.X`), `blockSize` the
given block size, and `startingX = startingY = 0`. -/
theorem NewQrSVG_fields (qr : Barcode) (b : Int) :
    (NewQrSVG qr b).qr = qr ∧
    (NewQrSVG qr b).qrWidth = qr.maxX ∧
    (NewQrSVG qr b).blockSize = b ∧
    (NewQrSVG qr b).startingX = 0 ∧
    (NewQrSVG qr b).startingY = 0 :=
  ⟨rfl, rfl, rfl, rfl, rfl⟩

/-- C13: on a matrix of kind "QR Code" whose cells are all dark, every one of
the `n*n` rectangles added to the sink has the foreground fill style; when
the cells are all light, every one has the background fill style. -/
theorem WriteColorQrSVG_uniform (qs : QrSVG) (s : SVG) (fg bg : Color)
    (hk : qs.qr.codeKind = "QR Code") :
    ((∀ x y : Nat, (x : Int) < qs.qrWidth → (y : Int) < qs.qrWidth →
        qs.qr.At x y = Color.Black) →
      ∃ emitted : List Call,
        (WriteColorQrSVG qs s fg bg).1 = s ++ emitted ∧
        emitted.length = qs.qrWidth.toNat * qs.qrWidth.toNat ∧
        ∀ c ∈ emitted, ∃ px py : Int,
          c = Call.rect px py qs.blockSize qs.blockSize (RGBAOf fg ++ ";stroke:none")) ∧
    ((∀ x y : Nat, (x : Int) < qs.qrWidth → (y : Int) < qs.qrWidth →
        qs.qr.At x y = Color.White) →
      ∃ emitted : List Call,
        (WriteColorQrSVG qs s fg bg).1 = s ++ emitted ∧
        emitted.length = qs.qrWidth.toNat * qs.qrWidth.toNat ∧
        ∀ c ∈ emitted, ∃ px py : Int,
          c = Call.rect px py qs.blockSize qs.blockSize (RGBAOf bg ++ ";stroke:none")) := by
  have key : ∀ style : String,
      (∀ x y : Nat, (x : Int) < qs.qrWidth → (y : Int) < qs.qrWidth →
        ∀ cx cy : Int, drawModule qs fg bg x y cx cy [] =
          [Call.rect cx cy qs.blockSize qs.blockSize style]) →
      ∃ emitted : List Call,
        (WriteColorQrSVG qs s fg bg).1 = s ++ emitted ∧
        emitted.length = qs.qrWidth.toNat * qs.qrWidth.toNat ∧
        ∀ c ∈ emitted, ∃ px py : Int,
          c = Call.rect px py qs.blockSize qs.blockSize style := by
    intro style hd
    let cell : Nat → Nat → Call := fun x y =>
      Call.rect (cursor qs.blockSize qs.startingX y) (cursor qs.blockSize qs.startingY x)
        qs.blockSize qs.blockSize style
    have hem : (WriteColorQrSVG qs s fg bg).1 =
        s ++ (List.range qs.qrWidth.toNat).flatMap (fun x =>
          (List.range qs.qrWidth.toNat).map (fun y => cell x y)) := by
      rw [WriteColorQrSVG_cursor_calls qs s fg bg hk]
      congr 1
      apply List.flatMap_congr
      intro x hx
      rw [← flatMap_singleton_eq_map]
      apply List.flatMap_congr
      intro y hy
      rw [List.mem_range, Int.lt_toNat] at hx hy
      exact hd x y hx hy _ _
    refine ⟨_, hem, length_flatMap_range_map cell _ _, ?_⟩
    intro c hc
    rw [List.mem_flatMap] at hc
    obtain ⟨x, _, hc⟩ := hc
    rw [List.mem_map] at hc
    obtain ⟨y, _, rfl⟩ := hc
    exact ⟨_, _, rfl⟩
  constructor
  · intro hd
    exact key _ (fun x y hx hy cx cy => drawModule_black qs fg bg x y cx cy (hd x y hx hy))
  · intro hl
    exact key _ (fun x y hx hy cx cy => drawModule_white qs fg bg x y cx cy (hl x y hx hy))

/-- Witness of C13: the all-dark 5×5 matrix drawn in red on white gets 25 red
rectangles, the all-light 2×2 matrix gets 4 white ones. -/
theorem WriteColorQrSVG_uniform_witness :
    (∃ emitted : List Call,
      (WriteColorQrSVG (NewQrSVG dark5 3) [] red Color.White).1 = [] ++ emitted ∧
      emitted.length = 5 * 5 ∧
      ∀ c ∈ emitted, ∃ px py : Int,
        c = Call.rect px py 3 3 (RGBAOf red ++ ";stroke:none")) ∧
    (∃ emitted : List Call,
      (WriteColorQrSVG (NewQrSVG light2 3) [] red Color.White).1 = [] ++ emitted ∧
      emitted.length = 2 * 2 ∧
      ∀ c ∈ emitted, ∃ px py : Int,
        c = Call.rect px py 3 3 (RGBAOf Color.White ++ ";stroke:none")) :=
  ⟨(WriteColorQrSVG_uniform (NewQrSVG dark5 3) [] red Color.White (by decide)).1
      (fun _ _ _ _ => rfl),
    (WriteColorQrSVG_uniform (NewQrSVG light2 3) [] red Color.White (by decide)).2
      (fun _ _ _ _ => rfl)⟩

/-- C15: a call of `WriteColorQrSVG` leaves the config as it was, whether it
succeeds or fails, and a second call on the same config adds the same calls
to the sink as the first and returns the same error. -/
theorem WriteColorQrSVG_frame (qs : QrSVG) (s : SVG) (fg bg : Color) :
    (WriteColorQrSVGState (qs, s) fg bg).1.1 = qs ∧
    (WriteColorQrSVGState (qs, s) fg bg).1.1.qrWidth = qs.qrWidth ∧
    (WriteColorQrSVGState (qs, s) fg bg).1.1.blockSize = qs.blockSize ∧
    (WriteColorQrSVGState (qs, s) fg bg).1.1.startingX = qs.startingX ∧
    (WriteColorQrSVGState (qs, s) fg bg).1.1.startingY = qs.startingY ∧
    ∃ emitted : List Call,
      (WriteColorQrSVGState (qs, s) fg bg).1.2 = s ++ emitted ∧
      (WriteColorQrSVGState (WriteColorQrSVGState (qs, s) fg bg).1 fg bg).1.2 =
        (s ++ emitted) ++ emitted ∧
      (WriteColorQrSVGState (WriteColorQrSVGState (qs, s) fg bg).1 fg bg).2 =
        (WriteColorQrSVGState (qs, s) fg bg).2 := by
  refine ⟨rfl, rfl, rfl, rfl, rfl, (WriteColorQrSVG qs [] fg bg).1, ?_, ?_, ?_⟩
  · exact WriteColorQrSVG_append qs s fg bg
  · show (WriteColorQrSVG qs (WriteColorQrSVG qs s fg bg).1 fg bg).1 = _
    rw [WriteColorQrSVG_append qs (WriteColorQrSVG qs s fg bg).1,
      WriteColorQrSVG_append qs s fg bg]
  · exact WriteColorQrSVG_error_indep qs _ _ fg bg

/-- C18: `SetStartPoint(x1, y1)` followed by `SetStartPoint(x2, y2)` leaves
the config `SetStartPoint(x2, y2)` alone gives, with the margin of
`4*blockSize` added once, and `SetStartPoint` changes neither the matrix nor
`qrWidth` nor `blockSize`. -/
theorem SetStartPoint_overwrite (qs : QrSVG) (x1 y1 x2 y2 : Int) :
    SetStartPoint (SetStartPoint qs x1 y1) x2 y2 = SetStartPoint qs x2 y2 ∧
    (SetStartPoint (SetStartPoint qs x1 y1) x2 y2).startingX =
      wrapInt (x2 + 4 * qs.blockSize) ∧
    (SetStartPoint (SetStartPoint qs x1 y1) x2 y2).startingY =
      wrapInt (y2 + 4 * qs.blockSize) ∧
    (SetStartPoint qs x1 y1).qr = qs.qr ∧
    (SetStartPoint qs x1 y1).qrWidth = qs.qrWidth ∧
    (SetStartPoint qs x1 y1).blockSize = qs.blockSize := by
  refine ⟨rfl, ?_, ?_, rfl, rfl, rfl⟩
  · show wrapInt (x2 + wrapInt (qs.blockSize * 4)) = _
    rw [wrapInt_add_wrapInt, Int.mul_comm]
  · show wrapInt (y2 + wrapInt (qs.blockSize * 4)) = _
    rw [wrapInt_add_wrapInt, Int.mul_comm]

/-- C12: on a matrix of kind "QR Code" no error is returned, a cell that is
neither dark nor light adds no call, every dark or light cell adds exactly its
one rectangle, so the number of calls added is the number of dark or light
cells; and for any other matrix that agrees on the dark and light cells the
calls of those cells are the same, the calls added here being a sublist of
the calls added there. -/
theorem WriteColorQrSVG_skip (qs : QrSVG) (s : SVG) (fg bg : Color)
    (hk : qs.qr.codeKind = "QR Code")
    (hx : InIntRange qs.startingX) (hy : InIntRange qs.startingY) :
    (WriteColorQrSVG qs s fg bg).2 = none ∧
    ∃ (emitted : List Call) (cell : Nat → Nat → List Call),
      (WriteColorQrSVG qs s fg bg).1 = s ++ emitted ∧
      emitted = (List.range qs.qrWidth.toNat).flatMap (fun x =>
        (List.range qs.qrWidth.toNat).flatMap (fun y => cell x y)) ∧
      emitted.length = moduleCount qs ∧
      (∀ x y : Nat, (x : Int) < qs.qrWidth → (y : Int) < qs.qrWidth →
        (qs.qr.At x y ≠ Color.Black → qs.qr.At x y ≠ Color.White → cell x y = []) ∧
        (qs.qr.At x y = Color.Black ∨ qs.qr.At x y = Color.White →
          cell x y = [Call.rect (wrapInt (qs.startingX + y * qs.blockSize))
            (wrapInt (qs.startingY + x * qs.blockSize)) qs.blockSize qs.blockSize
            (moduleStyle fg bg (qs.qr.At x y))])) ∧
      ∀ other : Int → Int → Color,
        (∀ x y : Nat, (x : Int) < qs.qrWidth → (y : Int) < qs.qrWidth →
          qs.qr.At x y = Color.Black ∨ qs.qr.At x y = Color.White →
          other x y = qs.qr.At x y) →
        ∃ (emitted2 : List Call) (cell2 : Nat → Nat → List Call),
          (WriteColorQrSVG { qs with qr := { qs.qr with At := other } } s fg bg).1 =
            s ++ emitted2 ∧
          emitted2 = (List.range qs.qrWidth.toNat).flatMap (fun x =>
            (List.range qs.qrWidth.toNat).flatMap (fun y => cell2 x y)) ∧
          (∀ x y : Nat, (x : Int) < qs.qrWidth → (y : Int) < qs.qrWidth →
            qs.qr.At x y = Color.Black ∨ qs.qr.At x y = Color.White →
            cell2 x y = cell x y) ∧
          List.Sublist emitted emitted2 := by
  refine ⟨by simp [WriteColorQrSVG, hk], _, moduleCalls qs fg bg,
    WriteColorQrSVG_calls qs s fg bg hk hx hy, rfl, moduleCalls_total_length qs fg bg,
    ?_, ?_⟩
  · intro x y _ _
    exact ⟨fun h1 h2 => drawModule_other qs fg bg x y _ _ h1 h2,
      fun h => drawModule_bilevel qs fg bg x y _ _ h⟩
  · intro other hagree
    have hcell : ∀ x y : Nat, (x : Int) < qs.qrWidth → (y : Int) < qs.qrWidth →
        qs.qr.At x y = Color.Black ∨ qs.qr.At x y = Color.White →
        moduleCalls { qs with qr := { qs.qr with At := other } } fg bg x y =
          moduleCalls qs fg bg x y := by
      intro x y hx' hy' hb
      have h := hagree x y hx' hy' hb
      unfold moduleCalls drawModule
      simp only [h]
    refine ⟨_, moduleCalls { qs with qr := { qs.qr with At := other } } fg bg,
      WriteColorQrSVG_calls { qs with qr := { qs.qr with At := other } } s fg bg hk hx hy,
      rfl, hcell, ?_⟩
    apply sublist_flatMap
    intro x hx'
    apply sublist_flatMap
    intro y hy'
    rw [List.mem_range, Int.lt_toNat] at hx' hy'
    by_cases h1 : qs.qr.At x y = Color.Black
    · rw [hcell x y hx' hy' (Or.inl h1)]
    · by_cases h2 : qs.qr.At x y = Color.White
      · rw [hcell x y hx' hy' (Or.inr h2)]
      · have h0 : moduleCalls qs fg bg x y = [] := drawModule_other qs fg bg x y _ _ h1 h2
        rw [h0]
        exact List.nil_sublist _

/-- Witness of C12: the 2×2 matrix `[[dark, grey], [light, dark]]` gets three
rectangles and no error; the grey cell `(0, 1)` adds nothing. -/
theorem WriteColorQrSVG_skip_witness :
    (WriteColorQrSVG ⟨greyCorner, 2, 3, 10, 20⟩ [] red Color.White).2 = none ∧
    ∃ (emitted : List Call) (cell : Nat → Nat → List Call),
      (WriteColorQrSVG ⟨greyCorner, 2, 3, 10, 20⟩ [] red Color.White).1 = [] ++ emitted ∧
      emitted = (List.range 2).flatMap (fun x => (List.range 2).flatMap (fun y => cell x y)) ∧
      emitted.length = 3 ∧
      cell 0 1 = [] := by
  obtain ⟨h0, emitted, cell, h1, h2, h3, h4, _⟩ :=
    WriteColorQrSVG_skip ⟨greyCorner, 2, 3, 10, 20⟩ [] red Color.White
      (by decide) (by decide) (by decide)
  refine ⟨h0, emitted, cell, h1, h2, ?_, ?_⟩
  · rw [h3]; decide
  · exact (h4 0 1 (by decide) (by decide)).1 (by decide) (by decide)

/-- C17: with the start point set by `SetStartPoint(x + dx, y + dy)` instead
of `SetStartPoint(x, y)` (the sums as Go passes them), `WriteColorQrSVG`
returns the same error and adds the same calls in the same order, each moved
by `(dx, dy)`: equally many, with the same sizes and styles, the new position
being the old one plus `(dx, dy)` computed in `int`, which is the exact sum
whenever that fits. -/
theorem WriteColorQrSVG_translate (qs : QrSVG) (s : SVG) (fg bg : Color)
    (x y dx dy : Int) :
    (WriteColorQrSVG (SetStartPoint qs (wrapInt (x + dx)) (wrapInt (y + dy))) s fg bg).2 =
      (WriteColorQrSVG (SetStartPoint qs x y) s fg bg).2 ∧
    ∃ e1 e2 : List Call,
      (WriteColorQrSVG (SetStartPoint qs x y) s fg bg).1 = s ++ e1 ∧
      (WriteColorQrSVG (SetStartPoint qs (wrapInt (x + dx)) (wrapInt (y + dy))) s fg bg).1 =
        s ++ e2 ∧
      e2 = e1.map (Call.shift dx dy) ∧
      e2.length = e1.length ∧
      ∀ (k : Nat) (px py w h : Int) (style : String),
        e1[k]? = some (Call.rect px py w h style) →
        e2[k]? = some (Call.rect (wrapInt (px + dx)) (wrapInt (py + dy)) w h style) ∧
        (InIntRange (px + dx) → InIntRange (py + dy) →
          e2[k]? = some (Call.rect (px + dx) (py + dy) w h style)) := by
  have hmap : (WriteColorQrSVG (SetStartPoint qs (wrapInt (x + dx)) (wrapInt (y + dy)))
      [] fg bg).1 =
      ((WriteColorQrSVG (SetStartPoint qs x y) [] fg bg).1).map (Call.shift dx dy) := by
    by_cases hk : qs.qr.codeKind = "QR Code"
    · rw [WriteColorQrSVG_calls (SetStartPoint qs (wrapInt (x + dx)) (wrapInt (y + dy)))
          [] fg bg hk (wrapInt_inRange _) (wrapInt_inRange _),
        WriteColorQrSVG_calls (SetStartPoint qs x y) [] fg bg hk
          (wrapInt_inRange _) (wrapInt_inRange _)]
      simp only [List.nil_append, List.map_flatMap]
      apply List.flatMap_congr
      intro i _
      apply List.flatMap_congr
      intro j _
      have hX : wrapInt ((SetStartPoint qs (wrapInt (x + dx)) (wrapInt (y + dy))).startingX
          + j * qs.blockSize) =
          wrapInt (wrapInt ((SetStartPoint qs x y).startingX + j * qs.blockSize) + dx) := by
        show wrapInt (wrapInt (wrapInt (x + dx) + wrapInt (qs.blockSize * 4))
          + j * qs.blockSize) =
          wrapInt (wrapInt (wrapInt (x + wrapInt (qs.blockSize * 4)) + j * qs.blockSize) + dx)
        generalize (j : Int) * qs.blockSize = t
        generalize qs.blockSize * 4 = u
        unfold wrapInt
        omega
      have hY : wrapInt ((SetStartPoint qs (wrapInt (x + dx)) (wrapInt (y + dy))).startingY
          + i * qs.blockSize) =
          wrapInt (wrapInt ((SetStartPoint qs x y).startingY + i * qs.blockSize) + dy) := by
        show wrapInt (wrapInt (wrapInt (y + dy) + wrapInt (qs.blockSize * 4))
          + i * qs.blockSize) =
          wrapInt (wrapInt (wrapInt (y + wrapInt (qs.blockSize * 4)) + i * qs.blockSize) + dy)
        generalize (i : Int) * qs.blockSize = t
        generalize qs.blockSize * 4 = u
        unfold wrapInt
        omega
      show drawModule (SetStartPoint qs (wrapInt (x + dx)) (wrapInt (y + dy))) fg bg i j
          (wrapInt ((SetStartPoint qs (wrapInt (x + dx)) (wrapInt (y + dy))).startingX
            + j * qs.blockSize))
          (wrapInt ((SetStartPoint qs (wrapInt (x + dx)) (wrapInt (y + dy))).startingY
            + i * qs.blockSize)) [] =
        List.map (Call.shift dx dy) (drawModule (SetStartPoint qs x y) fg bg i j
          (wrapInt ((SetStartPoint qs x y).startingX + j * qs.blockSize))
          (wrapInt ((SetStartPoint qs x y).startingY + i * qs.blockSize)) [])
      rw [hX, hY]
      exact drawModule_shift _ _ fg bg i j _ _ dx dy rfl rfl
    · have h1 : (SetStartPoint qs x y).qr.codeKind ≠ "QR Code" := hk
      have h2 : (SetStartPoint qs (wrapInt (x + dx)) (wrapInt (y + dy))).qr.codeKind
          ≠ "QR Code" := hk
      simp [WriteColorQrSVG, h1, h2]
  refine ⟨?_, (WriteColorQrSVG (SetStartPoint qs x y) [] fg bg).1, _,
    WriteColorQrSVG_append _ s fg bg, WriteColorQrSVG_append _ s fg bg, hmap, ?_, ?_⟩
  · unfold WriteColorQrSVG
    show (if qs.qr.codeKind = "QR Code" then _ else _ : SVG × Option String).2 =
      (if qs.qr.codeKind = "QR Code" then _ else _ : SVG × Option String).2
    split <;> rfl
  · rw [hmap, List.length_map]
  · intro k px py w h style hk
    have h2 : (WriteColorQrSVG (SetStartPoint qs (wrapInt (x + dx)) (wrapInt (y + dy)))
        [] fg bg).1[k]? =
        some (Call.rect (wrapInt (px + dx)) (wrapInt (py + dy)) w h style) := by
      rw [hmap, List.getElem?_map, hk]
      rfl
    refine ⟨h2, fun hpx hpy => ?_⟩
    rw [h2, wrapInt_of_inRange hpx, wrapInt_of_inRange hpy]

/-- Counterexample to C14 as stated: for the 2×2 checker matrix with block
size `b = 2^61 - 1` the sum `startingX + b` wraps, and the rectangle of module
`(0, 1)` drawn after `StartQrSVG` has a negative left coordinate, below
`4*b`. -/
theorem StartQrSVG_render_margin_counterexample :
    0 < hugeBlocks.qrWidth ∧ 0 < hugeBlocks.blockSize ∧
    (WriteColorQrSVG (StartQrSVG hugeBlocks []).1 [] Color.Black Color.White).1[1]? =
      some (Call.rect (-6917529027641081861) 9223372036854775804
        2305843009213693951 2305843009213693951
        "fill-opacity:1.00; fill:rgb(255,255,255);stroke:none") ∧
    ¬ (4 * hugeBlocks.blockSize ≤ (-6917529027641081861 : Int)) := by
  decide

/-- C14 (amended): after `StartQrSVG` on a config with side `n > 0` and block
size `b > 0` whose canvas side `W = n*b + 8*b` fits an `int`, the document is
started with side `W` and every rectangle a following `WriteColorQrSVG` adds
has left and top coordinates at least `4*b` and right and bottom edges at
most `W - 4*b`. -/
theorem StartQrSVG_render_margin (qs : QrSVG) (s0 s : SVG) (fg bg : Color)
    (hn : 0 < qs.qrWidth) (hb : 0 < qs.blockSize)
    (hW : InIntRange (qs.qrWidth * qs.blockSize + 8 * qs.blockSize)) :
    (StartQrSVG qs s0).2 =
      s0 ++ [Call.start (qs.qrWidth * qs.blockSize + 8 * qs.blockSize)
        (qs.qrWidth * qs.blockSize + 8 * qs.blockSize)] ∧
    ∃ emitted : List Call,
      (WriteColorQrSVG (StartQrSVG qs s0).1 s fg bg).1 = s ++ emitted ∧
      ∀ c ∈ emitted, ∃ (px py : Int) (style : String),
        c = Call.rect px py qs.blockSize qs.blockSize style ∧
        4 * qs.blockSize ≤ px ∧ 4 * qs.blockSize ≤ py ∧
        px + qs.blockSize ≤ qs.qrWidth * qs.blockSize + 8 * qs.blockSize - 4 * qs.blockSize ∧
        py + qs.blockSize ≤ qs.qrWidth * qs.blockSize + 8 * qs.blockSize - 4 * qs.blockSize := by
  have hnb : 0 < qs.qrWidth * qs.blockSize := mul_pos hn hb
  have hW1 := hW.1
  have hW2 := hW.2
  have h4 : InIntRange (4 * qs.blockSize) := by
    unfold InIntRange
    constructor <;> linarith
  have h4n : InIntRange (4 * qs.blockSize + qs.qrWidth * qs.blockSize) := by
    unfold InIntRange
    constructor <;> linarith
  have hstart : wrapInt (0 + wrapInt (qs.blockSize * 4)) = 4 * qs.blockSize := by
    rw [wrapInt_add_wrapInt, Int.zero_add, Int.mul_comm, wrapInt_of_inRange h4]
  have hsx : (StartQrSVG qs s0).1.startingX = 4 * qs.blockSize := hstart
  have hsy : (StartQrSVG qs s0).1.startingY = 4 * qs.blockSize := hstart
  have hbs : (StartQrSVG qs s0).1.blockSize = qs.blockSize := rfl
  have hqw : (StartQrSVG qs s0).1.qrWidth = qs.qrWidth := rfl
  constructor
  · show s0 ++ [Call.start _ _] = _
    rw [wrapInt_wrapInt_add, wrapInt_add_wrapInt, Int.mul_comm qs.blockSize 8,
      wrapInt_of_inRange hW]
  · refine ⟨(WriteColorQrSVG (StartQrSVG qs s0).1 [] fg bg).1,
      WriteColorQrSVG_append _ s fg bg, ?_⟩
    intro c hc
    by_cases hk : (StartQrSVG qs s0).1.qr.codeKind = "QR Code"
    · rw [WriteColorQrSVG_calls (StartQrSVG qs s0).1 [] fg bg hk
        (by rw [hsx]; exact h4) (by rw [hsy]; exact h4), List.nil_append] at hc
      obtain ⟨x, y, hx, hy, hc⟩ := mem_calls _ fg bg c hc
      obtain ⟨style, h⟩ := mem_moduleCalls (StartQrSVG qs s0).1 fg bg x y c
        (by rw [hbs]; exact hb.le) hx hy (by rw [hsx]; exact h4) (by rw [hsy]; exact h4)
        (by rw [hsx, hbs, hqw]; exact h4n) (by rw [hsy, hbs, hqw]; exact h4n) hc
      rw [hsx, hsy, hbs] at h
      rw [hqw] at hx hy
      have hx0 : 0 ≤ (x : Int) * qs.blockSize := mul_nonneg (Int.ofNat_nonneg x) hb.le
      have hy0 : 0 ≤ (y : Int) * qs.blockSize := mul_nonneg (Int.ofNat_nonneg y) hb.le
      have hx1 : ((x : Int) + 1) * qs.blockSize ≤ qs.qrWidth * qs.blockSize :=
        mul_le_mul_of_nonneg_right (by omega) hb.le
      have hy1 : ((y : Int) + 1) * qs.blockSize ≤ qs.qrWidth * qs.blockSize :=
        mul_le_mul_of_nonneg_right (by omega) hb.le
      rw [add_mul, one_mul] at hx1 hy1
      refine ⟨_, _, style, h, ?_, ?_, ?_, ?_⟩ <;> linarith
    · have he : (WriteColorQrSVG (StartQrSVG qs s0).1 [] fg bg).1 = [] := by
        simp [WriteColorQrSVG, hk]
      rw [he] at hc
      simp at hc

/-- Witness of C14 (amended): the 2×2 checker matrix with block size 3; the
canvas side is 30 and every rectangle lies between 12 and 18. -/
theorem StartQrSVG_render_margin_witness :
    (StartQrSVG (NewQrSVG checker2 3) []).2 = [] ++ [Call.start 30 30] ∧
    ∃ emitted : List Call,
      (WriteColorQrSVG (StartQrSVG (NewQrSVG checker2 3) []).1 [] red Color.White).1 =
        [] ++ emitted ∧
      ∀ c ∈ emitted, ∃ (px py : Int) (style : String),
        c = Call.rect px py 3 3 style ∧
        12 ≤ px ∧ 12 ≤ py ∧ px + 3 ≤ 18 ∧ py + 3 ≤ 18 :=
  StartQrSVG_render_margin (NewQrSVG checker2 3) [] [] red Color.White
    (by decide) (by decide) (by decide)

/-- Counterexample to C16 as stated: for the all-dark 5×5 matrix with block
size `2^62` starting at `(0, 0)`, four additions of the block size wrap to
zero, so the rectangles of the modules `(0, 0)` and `(0, 4)`, the first and
the fifth drawn, are at the same pixel position `(0, 0)`. -/
theorem WriteColorQrSVG_disjoint_counterexample :
    wrapping5.qr.codeKind = "QR Code" ∧ 0 < wrapping5.blockSize ∧
    (WriteColorQrSVG wrapping5 [] Color.Black Color.White).1[0]? =
      some (Call.rect 0 0 4611686018427387904 4611686018427387904
        "fill-opacity:1.00; fill:rgb(0,0,0);stroke:none") ∧
    (WriteColorQrSVG wrapping5 [] Color.Black Color.White).1[4]? =
      some (Call.rect 0 0 4611686018427387904 4611686018427387904
        "fill-opacity:1.00; fill:rgb(0,0,0);stroke:none") := by
  decide

/-- C16 (amended): on a matrix of kind "QR Code" with side `n` and block size
`b > 0`, when `startingX + n*b` and `startingY + n*b` fit an `int`, every
rectangle of module `(x, y)` is at `(startingX + y*b, startingY + x*b)`, and
the rectangles of two distinct modules are at distinct positions and their
`b`-by-`b` squares do not overlap. -/
theorem WriteColorQrSVG_disjoint (qs : QrSVG) (s : SVG) (fg bg : Color)
    (hk : qs.qr.codeKind = "QR Code") (hb : 0 < qs.blockSize)
    (hx : InIntRange qs.startingX) (hy : InIntRange qs.startingY)
    (hX : InIntRange (qs.startingX + qs.qrWidth * qs.blockSize))
    (hY : InIntRange (qs.startingY + qs.qrWidth * qs.blockSize)) :
    ∃ cell : Nat → Nat → List Call,
      (WriteColorQrSVG qs s fg bg).1 =
        s ++ (List.range qs.qrWidth.toNat).flatMap (fun x =>
          (List.range qs.qrWidth.toNat).flatMap (fun y => cell x y)) ∧
      (∀ x y : Nat, (x : Int) < qs.qrWidth → (y : Int) < qs.qrWidth →
        ∀ c ∈ cell x y, ∃ style : String,
          c = Call.rect (qs.startingX + y * qs.blockSize) (qs.startingY + x * qs.blockSize)
            qs.blockSize qs.blockSize style) ∧
      ∀ x y x2 y2 : Nat, (x : Int) < qs.qrWidth → (y : Int) < qs.qrWidth →
        (x2 : Int) < qs.qrWidth → (y2 : Int) < qs.qrWidth → (x ≠ x2 ∨ y ≠ y2) →
        ∀ (px py px2 py2 w h w2 h2 : Int) (style style2 : String),
          Call.rect px py w h style ∈ cell x y →
          Call.rect px2 py2 w2 h2 style2 ∈ cell x2 y2 →
          (px ≠ px2 ∨ py ≠ py2) ∧
          (px + qs.blockSize ≤ px2 ∨ px2 + qs.blockSize ≤ px ∨
            py + qs.blockSize ≤ py2 ∨ py2 + qs.blockSize ≤ py) := by
  have hpos : ∀ x y : Nat, (x : Int) < qs.qrWidth → (y : Int) < qs.qrWidth →
      ∀ c ∈ moduleCalls qs fg bg x y, ∃ style : String,
        c = Call.rect (qs.startingX + y * qs.blockSize) (qs.startingY + x * qs.blockSize)
          qs.blockSize qs.blockSize style :=
    fun x y hxn hyn c hc => mem_moduleCalls qs fg bg x y c hb.le hxn hyn hx hy hX hY hc
  refine ⟨moduleCalls qs fg bg, WriteColorQrSVG_calls qs s fg bg hk hx hy, hpos, ?_⟩
  intro x y x2 y2 hxn hyn hxn2 hyn2 hne px py px2 py2 w h w2 h2 style style2 hc hc2
  obtain ⟨_, e⟩ := hpos x y hxn hyn _ hc
  obtain ⟨_, e2⟩ := hpos x2 y2 hxn2 hyn2 _ hc2
  injection e with epx epy
  injection e2 with epx2 epy2
  have step : ∀ a c : Nat, a < c →
      (a : Int) * qs.blockSize + qs.blockSize ≤ (c : Int) * qs.blockSize := by
    intro a c hac
    have h1 : ((a : Int) + 1) * qs.blockSize ≤ (c : Int) * qs.blockSize :=
      mul_le_mul_of_nonneg_right (by omega) hb.le
    rw [add_mul, one_mul] at h1
    exact h1
  have key : (px + qs.blockSize ≤ px2 ∨ px2 + qs.blockSize ≤ px ∨
      py + qs.blockSize ≤ py2 ∨ py2 + qs.blockSize ≤ py) := by
    rw [epx, epy, epx2, epy2]
    rcases hne with hne | hne
    · rcases Nat.lt_or_gt_of_ne hne with hlt | hlt
      · have := step x x2 hlt
        right; right; left; linarith
      · have := step x2 x hlt
        right; right; right; linarith
    · rcases Nat.lt_or_gt_of_ne hne with hlt | hlt
      · have := step y y2 hlt
        left; linarith
      · have := step y2 y hlt
        right; left; linarith
  refine ⟨?_, key⟩
  rcases key with k | k | k | k
  · left; intro e; rw [e] at k; linarith
  · left; intro e; rw [e] at k; linarith
  · right; intro e; rw [e] at k; linarith
  · right; intro e; rw [e] at k; linarith

/-- Witness of C16 (amended): the 2×2 checker matrix with block size 3 at
start `(10, 20)`; the modules `(0, 1)` and `(1, 1)` are drawn at `(13, 20)` and
`(13, 23)`. -/
theorem WriteColorQrSVG_disjoint_witness :
    ∃ cell : Nat → Nat → List Call,
      (WriteColorQrSVG ⟨checker2, 2, 3, 10, 20⟩ [] red Color.White).1 =
        (List.range 2).flatMap (fun x => (List.range 2).flatMap (fun y => cell x y)) ∧
      (∀ c ∈ cell 0 1, ∃ style : String, c = Call.rect 13 20 3 3 style) ∧
      (∀ c ∈ cell 1 1, ∃ style : String, c = Call.rect 13 23 3 3 style) := by
  obtain ⟨cell, h1, h2, _⟩ :=
    WriteColorQrSVG_disjoint ⟨checker2, 2, 3, 10, 20⟩ [] red Color.White
      (by decide) (by decide) (by decide) (by decide) (by decide) (by decide)
  refine ⟨cell, by simpa using h1, ?_, ?_⟩
  · intro c hc
    simpa using h2 0 1 (by decide) (by decide) c hc
  · intro c hc
    simpa using h2 1 1 (by decide) (by decide) c hc

end Goqrsvg
